import Mathlib

set_option autoImplicit false

/-!
Verification of the leonardo-cli request-encoding, response-decoding and
download-workflow core.  Go values are embedded as follows: Go strings and
raw response byte slices become `String`, Go `int` becomes `Int`, Go
`float64` becomes `Rat` (the operations performed on floats here are only
zero comparisons and passthrough, which are exact), and dynamically typed
JSON documents (`map[string]interface{}` and friends) become the `Json`
inductive below.  The byte-level JSON parser is Go's standard library, not
part of this repository, so a response body is embedded as its raw `String`
together with its parse outcome (`Option Json`, `none` meaning malformed).
-/

namespace LeonardoCLI

/-- A JSON value as produced by Go's encoding/json when decoding into
dynamically typed documents.  Objects are association lists; documents
produced by `json.Unmarshal` have distinct keys. -/
inductive Json where
  | null : Json
  | bool : Bool → Json
  | num : Rat → Json
  | str : String → Json
  | arr : List Json → Json
  | obj : List (String × Json) → Json
  deriving Repr

/-- Key lookup in a decoded JSON object, mirroring Go map indexing
`m[k]` (comma-ok form). -/
def lookupField (k : String) : List (String × Json) → Option Json
  | [] => none
  | (k₁, v) :: rest => if k₁ = k then some v else lookupField k rest

/-- The domain.GenerationRequest struct (internal/domain/models.go).  The Go
field `Private` is renamed `privateFlag` because `private` is reserved in
Lean.  Defaults are the Go zero values. -/
structure GenerationRequest where
  prompt : String := ""
  negativePrompt : String := ""
  modelID : String := ""
  width : Int := 0
  height : Int := 0
  numImages : Int := 0
  seed : Int := 0
  tags : List String := []
  privateFlag : Bool := false
  alchemy : Bool := false
  ultra : Bool := false
  styleUUID : String := ""
  contrast : Rat := 0
  guidanceScale : Rat := 0
  deriving Repr

/-- One conditional `bodyMap[key] = value` statement of
APIClient.CreateGeneration: the pair is present exactly when the guard
holds. -/
def optionalField (cond : Prop) [Decidable cond] (key : String) (value : Json) :
    List (String × Json) := if cond then [(key, value)] else []

/-- The JSON body map built by APIClient.CreateGeneration
(internal/provider/leonardo_api.go, lines 38-65) before marshalling:
`prompt` and `num_images` unconditionally, then each optional field guarded
exactly as in the source (`!= ""` for strings, `> 0` for numbers, truth for
booleans).  The Go map is embedded as an association list whose entries
follow the source's textual order; the claims below only depend on key
membership and values, which is all `json.Marshal` of a map preserves. -/
def createGenerationBody (req : GenerationRequest) : List (String × Json) :=
  [("prompt", Json.str req.prompt), ("num_images", Json.num req.numImages)]
    ++ optionalField (req.modelID ≠ "") "modelId" (Json.str req.modelID)
    ++ optionalField (0 < req.width) "width" (Json.num req.width)
    ++ optionalField (0 < req.height) "height" (Json.num req.height)
    ++ optionalField (req.alchemy = true) "alchemy" (Json.bool true)
    ++ optionalField (req.ultra = true) "ultra" (Json.bool true)
    ++ optionalField (req.styleUUID ≠ "") "styleUUID" (Json.str req.styleUUID)
    ++ optionalField (0 < req.contrast) "contrast" (Json.num req.contrast)
    ++ optionalField (0 < req.guidanceScale) "guidance_scale" (Json.num req.guidanceScale)

theorem lookupField_optionalField (cond : Prop) [Decidable cond]
    (k₁ k : String) (v : Json) (rest : List (String × Json)) :
    lookupField k (optionalField cond k₁ v ++ rest) =
      if k₁ = k ∧ cond then some v else lookupField k rest := by
  by_cases hc : cond <;> by_cases hk : k₁ = k <;>
    simp [optionalField, lookupField, hc, hk]

theorem lookupField_optionalField₁ (cond : Prop) [Decidable cond]
    (k₁ k : String) (v : Json) :
    lookupField k (optionalField cond k₁ v) =
      if k₁ = k ∧ cond then some v else none := by
  by_cases hc : cond <;> by_cases hk : k₁ = k <;>
    simp [optionalField, lookupField, hc, hk]

/-- The complete set of keys that APIClient.CreateGeneration can ever place
in the request body map. -/
def wireKeys : List String :=
  ["prompt", "num_images", "modelId", "width", "height", "alchemy", "ultra",
   "styleUUID", "contrast", "guidance_scale"]

/-- C1, counterexample to the claim as stated: in this request the negative
prompt, seed, tags and privacy flag all differ from their zero values and
the width is negative (hence also non-zero), yet the encoded payload
carries only `prompt` and `num_images` — none of those fields is included
under any wire key. -/
theorem c1_counterexample :
    createGenerationBody
        { prompt := "x", negativePrompt := "blurry", seed := 42, tags := ["t"],
          privateFlag := true, width := -1 }
      = [("prompt", Json.str "x"), ("num_images", Json.num 0)] := by
  rfl

/-- C1 (amended): the encoder includes `modelId` and `styleUUID` exactly when
the respective string is non-empty, `width`, `height`, `contrast` and
`guidance_scale` exactly when the respective number is strictly positive,
and `alchemy` and `ultra` exactly when the respective boolean is true, each
under its wire key and with the request's value; no key outside `wireKeys`
ever appears; and the payload does not depend on the negative prompt, seed,
tags or privacy flag at all. -/
theorem c1_optional_field_encoding (req : GenerationRequest) :
    lookupField "modelId" (createGenerationBody req)
        = (if req.modelID ≠ "" then some (Json.str req.modelID) else none)
  ∧ lookupField "width" (createGenerationBody req)
        = (if 0 < req.width then some (Json.num req.width) else none)
  ∧ lookupField "height" (createGenerationBody req)
        = (if 0 < req.height then some (Json.num req.height) else none)
  ∧ lookupField "alchemy" (createGenerationBody req)
        = (if req.alchemy = true then some (Json.bool true) else none)
  ∧ lookupField "ultra" (createGenerationBody req)
        = (if req.ultra = true then some (Json.bool true) else none)
  ∧ lookupField "styleUUID" (createGenerationBody req)
        = (if req.styleUUID ≠ "" then some (Json.str req.styleUUID) else none)
  ∧ lookupField "contrast" (createGenerationBody req)
        = (if 0 < req.contrast then some (Json.num req.contrast) else none)
  ∧ lookupField "guidance_scale" (createGenerationBody req)
        = (if 0 < req.guidanceScale then some (Json.num req.guidanceScale) else none)
  ∧ (∀ k, k ∉ wireKeys → lookupField k (createGenerationBody req) = none)
  ∧ createGenerationBody req =
      createGenerationBody
        { req with negativePrompt := "", seed := 0, tags := [], privateFlag := false } := by
  refine ⟨?_, ?_, ?_, ?_, ?_, ?_, ?_, ?_, ?univ, rfl⟩
  case univ =>
    intro k hk
    simp [wireKeys] at hk
    obtain ⟨h₁, h₂, h₃, h₄, h₅, h₆, h₇, h₈, h₉, h₁₀⟩ := hk
    simp [createGenerationBody, lookupField, lookupField_optionalField,
      lookupField_optionalField₁, Ne.symm h₁, Ne.symm h₂, Ne.symm h₃, Ne.symm h₄,
      Ne.symm h₅, Ne.symm h₆, Ne.symm h₇, Ne.symm h₈, Ne.symm h₉, Ne.symm h₁₀]
  all_goals
    simp [createGenerationBody, lookupField, lookupField_optionalField,
      lookupField_optionalField₁]

/-- C1 witness: a positive width is encoded with its value, and a non-empty
negative prompt still produces no `negative_prompt` key. -/
theorem c1_witness :
    lookupField "width" (createGenerationBody { prompt := "x", width := 1024 })
        = some (Json.num 1024)
  ∧ lookupField "negative_prompt"
        (createGenerationBody { prompt := "x", negativePrompt := "blurry" }) = none := by
  constructor
  case left =>
    have h := (c1_optional_field_encoding { prompt := "x", width := 1024 }).2.1
    rw [if_pos (by decide)] at h
    exact h
  case right =>
    exact (c1_optional_field_encoding
      { prompt := "x", negativePrompt := "blurry" }).2.2.2.2.2.2.2.2.1
      "negative_prompt" (by decide)

/-- C2, counterexample to the claim as stated: when the image count is unset
(zero in the request), the payload carries `num_images` 0 verbatim — no
default of 1 is applied by the encoder. -/
theorem c2_counterexample :
    lookupField "num_images" (createGenerationBody { prompt := "x" })
        = some (Json.num 0)
  ∧ Json.num 0 ≠ Json.num 1 := by
  refine ⟨rfl, fun h => ?_⟩
  have h0 : (0 : Rat) = 1 := Json.num.inj h
  norm_num at h0

/-- C2 (amended): the payload always carries `prompt` and `num_images`, the
latter verbatim from the request with no defaulting (the default of 1 is
supplied by the CLI flag layer, outside the encoder); and when every
optional field is zero-valued the payload is exactly these two fields. -/
theorem c2_required_fields (req : GenerationRequest) :
    lookupField "prompt" (createGenerationBody req) = some (Json.str req.prompt)
  ∧ lookupField "num_images" (createGenerationBody req) = some (Json.num req.numImages)
  ∧ (req.modelID = "" → req.width = 0 → req.height = 0 → req.alchemy = false →
      req.ultra = false → req.styleUUID = "" → req.contrast = 0 →
      req.guidanceScale = 0 →
      createGenerationBody req
        = [("prompt", Json.str req.prompt), ("num_images", Json.num req.numImages)]) := by
  refine ⟨by simp [createGenerationBody, lookupField],
    by simp [createGenerationBody, lookupField], ?_⟩
  intro hm hw hh ha hu hs hc hg
  simp [createGenerationBody, optionalField, hm, hw, hh, ha, hu, hs, hc, hg]

/-- C2 witness: with prompt "p", image count 1 and all optional fields at
their zero values, the payload is exactly the two required fields. -/
theorem c2_witness :
    createGenerationBody { prompt := "p", numImages := 1 }
      = [("prompt", Json.str "p"), ("num_images", Json.num 1)] :=
  (c2_required_fields { prompt := "p", numImages := 1 }).2.2
    rfl rfl rfl rfl rfl rfl rfl rfl

/-! ## Response structs (internal/domain/models.go) -/

/-- domain.GenerationResponse. -/
structure GenerationResponse where
  generationID : String := ""
  raw : String := ""
  deriving Repr

/-- domain.GenerationStatus. -/
structure GenerationStatus where
  status : String := ""
  images : List String := []
  raw : String := ""
  deriving Repr

/-- domain.DeleteResponse. -/
structure DeleteResponse where
  id : String := ""
  raw : String := ""
  deriving Repr

/-- domain.UserInfo. -/
structure UserInfo where
  userID : String := ""
  username : String := ""
  apiSubscriptionTokens : Int := 0
  apiPaidTokens : Int := 0
  tokenRenewalDate : String := ""
  raw : String := ""
  deriving Repr

/-- domain.GenerationListItem. -/
structure GenerationListItem where
  id : String := ""
  status : String := ""
  createdAt : String := ""
  prompt : String := ""
  images : List String := []
  deriving Repr

/-- domain.GenerationListResponse. -/
structure GenerationListResponse where
  generations : List GenerationListItem := []
  raw : String := ""
  deriving Repr

/-! ## Response decoding (internal/provider/leonardo_api.go)

Each decoder embeds the structured-field extraction an APIClient method
performs after a successful read of the body.  `parsed` is the outcome of
`json.Unmarshal` on the raw bytes, `none` meaning malformed JSON; the Go
code checks `err == nil` and otherwise leaves every structured field at its
zero value. -/

/-- Go's `m[k].(string)` comma-ok assertion with zero-value fallback. -/
def strField (k : String) (obj : List (String × Json)) : String :=
  match lookupField k obj with
  | some (Json.str s) => s
  | _ => ""

/-- One iteration of the `generated_images` loop: Go asserts the entry to
a map and its `url` to a string, skipping the entry otherwise. -/
def imageUrl : Json → Option String
  | Json.obj fields =>
      match lookupField "url" fields with
      | some (Json.str u) => some u
      | _ => none
  | _ => none

/-- The `generated_images` append loop of GetGenerationStatus (and of
ListGenerations): urls collected in input order, entries without a string
url skipped. -/
def statusImages (items : List Json) : List String :=
  items.filterMap imageUrl

/-- Extraction of the image-url list from a generation object: absent or
non-array `generated_images` leaves the zero value (empty list). -/
def imagesField (gen : List (String × Json)) : List String :=
  match lookupField "generated_images" gen with
  | some (Json.arr items) => statusImages items
  | _ => []

/-- Go's `int(f)` conversion from float64 truncates toward zero. -/
def ratTrunc (q : Rat) : Int :=
  if 0 ≤ q.num then ((q.num.toNat / q.den : Nat) : Int)
  else -((((-q.num).toNat) / q.den : Nat) : Int)

/-- Go's `m[k].(float64)` assertion followed by `int(...)`, with zero-value
fallback. -/
def numFieldTrunc (k : String) (obj : List (String × Json)) : Int :=
  match lookupField k obj with
  | some (Json.num q) => ratTrunc q
  | _ => 0

/-- CreateGeneration's extraction of `sdGenerationJob.generationId`
(leonardo_api.go, lines 90-99). -/
def decodeGenerationResponse (raw : String) (parsed : Option Json) :
    GenerationResponse :=
  match parsed with
  | some (Json.obj fields) =>
    match lookupField "sdGenerationJob" fields with
    | some (Json.obj job) =>
      match lookupField "generationId" job with
      | some (Json.str id) => { generationID := id, raw := raw }
      | _ => { raw := raw }
    | _ => { raw := raw }
  | _ => { raw := raw }

/-- GetGenerationStatus's extraction of `generations_by_pk.status` and the
image urls (leonardo_api.go, lines 126-145). -/
def decodeGenerationStatus (raw : String) (parsed : Option Json) :
    GenerationStatus :=
  match parsed with
  | some (Json.obj fields) =>
    match lookupField "generations_by_pk" fields with
    | some (Json.obj gen) =>
        { status := strField "status" gen, images := imagesField gen, raw := raw }
    | _ => { raw := raw }
  | _ => { raw := raw }

/-- DeleteGeneration's extraction of `delete_generations_by_pk.id`
(leonardo_api.go, lines 171-180). -/
def decodeDeleteResponse (raw : String) (parsed : Option Json) :
    DeleteResponse :=
  match parsed with
  | some (Json.obj fields) =>
    match lookupField "delete_generations_by_pk" fields with
    | some (Json.obj del) =>
      match lookupField "id" del with
      | some (Json.str delID) => { id := delID, raw := raw }
      | _ => { raw := raw }
    | _ => { raw := raw }
  | _ => { raw := raw }

/-- GetUserInfo's extraction from the first element of `user_details`
(leonardo_api.go, lines 205-229). -/
def decodeUserInfo (raw : String) (parsed : Option Json) : UserInfo :=
  match parsed with
  | some (Json.obj fields) =>
    match lookupField "user_details" fields with
    | some (Json.arr (d :: _)) =>
      match d with
      | Json.obj detail =>
        let ids : String × String :=
          match lookupField "user" detail with
          | some (Json.obj user) => (strField "id" user, strField "username" user)
          | _ => ("", "")
        { userID := ids.1, username := ids.2,
          apiSubscriptionTokens := numFieldTrunc "apiSubscriptionTokens" detail,
          apiPaidTokens := numFieldTrunc "apiPaidTokens" detail,
          tokenRenewalDate := strField "apiPlanTokenRenewalDate" detail,
          raw := raw }
      | _ => { raw := raw }
    | _ => { raw := raw }
  | _ => { raw := raw }

/-- One entry of the `generations` array of ListGenerations: non-object
entries are skipped, each field extracted with zero-value fallbacks. -/
def decodeListItem (g : Json) : Option GenerationListItem :=
  match g with
  | Json.obj gen =>
      some { id := strField "id" gen, status := strField "status" gen,
             createdAt := strField "createdAt" gen, prompt := strField "prompt" gen,
             images := imagesField gen }
  | _ => none

/-- ListGenerations's extraction of the generation summaries
(leonardo_api.go, lines 256-288). -/
def decodeGenerationList (raw : String) (parsed : Option Json) :
    GenerationListResponse :=
  match parsed with
  | some (Json.obj fields) =>
    match lookupField "generations" fields with
    | some (Json.arr gens) =>
        { generations := gens.filterMap decodeListItem, raw := raw }
    | _ => { raw := raw }
  | _ => { raw := raw }

/-! ## HTTP status interpretation

Each APIClient method, after reading the body bytes, returns
`(Struct{Raw: body}, error "API returned status %d")` when the status code
is ≥ 300 and otherwise decodes; these functions embed exactly that step
(the transport itself is Go's net/http, external to the repository). -/

/-- The error text every operation produces for an HTTP status ≥ 300. -/
def apiStatusError (code : Nat) : String :=
  "API returned status " ++ toString code

/-- CreateGeneration from the response's status code and body onward. -/
def createGenerationRespond (code : Nat) (raw : String) (parsed : Option Json) :
    GenerationResponse × Option String :=
  if 300 ≤ code then ({ raw := raw }, some (apiStatusError code))
  else (decodeGenerationResponse raw parsed, none)

/-- GetGenerationStatus from the response's status code and body onward. -/
def getGenerationStatusRespond (code : Nat) (raw : String) (parsed : Option Json) :
    GenerationStatus × Option String :=
  if 300 ≤ code then ({ raw := raw }, some (apiStatusError code))
  else (decodeGenerationStatus raw parsed, none)

/-- DeleteGeneration from the response's status code and body onward. -/
def deleteGenerationRespond (code : Nat) (raw : String) (parsed : Option Json) :
    DeleteResponse × Option String :=
  if 300 ≤ code then ({ raw := raw }, some (apiStatusError code))
  else (decodeDeleteResponse raw parsed, none)

/-- GetUserInfo from the response's status code and body onward. -/
def getUserInfoRespond (code : Nat) (raw : String) (parsed : Option Json) :
    UserInfo × Option String :=
  if 300 ≤ code then ({ raw := raw }, some (apiStatusError code))
  else (decodeUserInfo raw parsed, none)

/-- ListGenerations from the response's status code and body onward. -/
def listGenerationsRespond (code : Nat) (raw : String) (parsed : Option Json) :
    GenerationListResponse × Option String :=
  if 300 ≤ code then ({ raw := raw }, some (apiStatusError code))
  else (decodeGenerationList raw parsed, none)

/-- C4: every HTTP status ≥ 300 makes each of the five operations return an
error carrying the numeric status code while the returned struct still
holds the raw body bytes. -/
theorem c4_http_status_error (code : Nat) (h : 300 ≤ code) (raw : String)
    (parsed : Option Json) :
    apiStatusError code = "API returned status " ++ toString code
  ∧ createGenerationRespond code raw parsed
      = ({ raw := raw }, some (apiStatusError code))
  ∧ getGenerationStatusRespond code raw parsed
      = ({ raw := raw }, some (apiStatusError code))
  ∧ deleteGenerationRespond code raw parsed
      = ({ raw := raw }, some (apiStatusError code))
  ∧ getUserInfoRespond code raw parsed
      = ({ raw := raw }, some (apiStatusError code))
  ∧ listGenerationsRespond code raw parsed
      = ({ raw := raw }, some (apiStatusError code)) := by
  refine ⟨rfl, ?_, ?_, ?_, ?_, ?_⟩ <;>
    simp [createGenerationRespond, getGenerationStatusRespond,
      deleteGenerationRespond, getUserInfoRespond, listGenerationsRespond, h]

/-- C4 witness: a 404 with an error body produces the "API returned status
404" error and a status struct still holding the body. -/
theorem c4_witness :
    300 ≤ 404
  ∧ getGenerationStatusRespond 404 "error body" none
      = ({ raw := "error body" }, some ("API returned status " ++ toString 404)) := by
  refine ⟨by decide, ?_⟩
  exact (c4_http_status_error 404 (by decide) "error body" none).2.2.1

theorem filterMap_eq_filter_getD {α β : Type} (f : α → Option β) (d : β)
    (l : List α) :
    l.filterMap f = (l.filter fun a => (f a).isSome).map fun a => (f a).getD d := by
  induction l with
  | nil => rfl
  | cons a t ih => cases h : f a <;> simp [List.filterMap_cons, List.filter_cons, h, ih]

theorem statusImages_urlObjs (us : List String) :
    statusImages (us.map fun u => Json.obj [("url", Json.str u)]) = us := by
  induction us with
  | nil => rfl
  | cons u t ih => simpa [statusImages, imageUrl, lookupField] using ih

/-- C5: decoding a well-formed status body yields the status string and the
image urls in input order; entries without a string url key are skipped
(the remaining urls keep their relative order), a list made only of url
objects decodes to exactly those urls in order, a missing images array
yields the empty list, and the raw bytes are preserved. -/
theorem c5_status_decoding (raw s : String) (outer gen : List (String × Json))
    (hgen : lookupField "generations_by_pk" outer = some (Json.obj gen))
    (hs : lookupField "status" gen = some (Json.str s)) :
    (decodeGenerationStatus raw (some (Json.obj outer))).status = s
  ∧ (∀ items, lookupField "generated_images" gen = some (Json.arr items) →
      (decodeGenerationStatus raw (some (Json.obj outer))).images
        = (items.filter fun it => (imageUrl it).isSome).map
            fun it => (imageUrl it).getD "")
  ∧ (∀ us : List String,
      lookupField "generated_images" gen
          = some (Json.arr (us.map fun u => Json.obj [("url", Json.str u)])) →
      (decodeGenerationStatus raw (some (Json.obj outer))).images = us)
  ∧ (lookupField "generated_images" gen = none →
      (decodeGenerationStatus raw (some (Json.obj outer))).images = [])
  ∧ (decodeGenerationStatus raw (some (Json.obj outer))).raw = raw := by
  refine ⟨?_, ?_, ?_, ?_, ?_⟩
  · simp [decodeGenerationStatus, hgen, strField, hs]
  · intro items hit
    simp [decodeGenerationStatus, hgen, imagesField, hit, statusImages,
      filterMap_eq_filter_getD imageUrl ""]
  · intro us hit
    simp [decodeGenerationStatus, hgen, imagesField, hit, statusImages_urlObjs]
  · intro hit
    simp [decodeGenerationStatus, hgen, imagesField, hit]
  · simp [decodeGenerationStatus, hgen]

/-- C5 witness: a body with three image objects decodes to the three urls
in input order. -/
theorem c5_witness :
    (decodeGenerationStatus "" (some (Json.obj
        [("generations_by_pk", Json.obj
          [("status", Json.str "COMPLETE"),
           ("generated_images", Json.arr
             [Json.obj [("url", Json.str "u1")],
              Json.obj [("url", Json.str "u2")],
              Json.obj [("url", Json.str "u3")]])])]))).images
      = ["u1", "u2", "u3"] := by
  exact (c5_status_decoding "" "COMPLETE"
      [("generations_by_pk", Json.obj
        [("status", Json.str "COMPLETE"),
         ("generated_images", Json.arr
           [Json.obj [("url", Json.str "u1")],
            Json.obj [("url", Json.str "u2")],
            Json.obj [("url", Json.str "u3")]])])]
      [("status", Json.str "COMPLETE"),
       ("generated_images", Json.arr
         [Json.obj [("url", Json.str "u1")],
          Json.obj [("url", Json.str "u2")],
          Json.obj [("url", Json.str "u3")]])]
      rfl rfl).2.2.1 ["u1", "u2", "u3"] rfl

/-- C6, counterexample to the claim as stated: a 200 response whose body is
not valid JSON produces no error at all — the decode failure is silently
swallowed, not surfaced as a parse error (the raw bytes are kept). -/
theorem c6_counterexample :
    getGenerationStatusRespond 200 "not json" none
      = ({ status := "", images := [], raw := "not json" }, none) := by
  rfl

/-- C6 (amended): on a successful HTTP status with a malformed body, every
operation silently returns zero-valued structured fields and no error,
while the raw bytes are still returned. -/
theorem c6_parse_failure_swallowed (code : Nat) (h : code < 300) (raw : String) :
    createGenerationRespond code raw none = ({ raw := raw }, none)
  ∧ getGenerationStatusRespond code raw none = ({ raw := raw }, none)
  ∧ deleteGenerationRespond code raw none = ({ raw := raw }, none)
  ∧ getUserInfoRespond code raw none = ({ raw := raw }, none)
  ∧ listGenerationsRespond code raw none = ({ raw := raw }, none) := by
  have h₀ : ¬ 300 ≤ code := by omega
  refine ⟨?_, ?_, ?_, ?_, ?_⟩ <;>
    simp [createGenerationRespond, getGenerationStatusRespond,
      deleteGenerationRespond, getUserInfoRespond, listGenerationsRespond, h₀,
      decodeGenerationResponse, decodeGenerationStatus, decodeDeleteResponse,
      decodeUserInfo, decodeGenerationList]

/-- C6 witness: at status 200 with the malformed body "not json", the status
operation reports no error and keeps the raw bytes. -/
theorem c6_witness :
    (200 : Nat) < 300
  ∧ getGenerationStatusRespond 200 "not json" none
      = ({ raw := "not json" }, none) := by
  refine ⟨by decide, ?_⟩
  exact (c6_parse_failure_swallowed 200 (by decide) "not json").2.1

/-! ## The Download workflow (internal/service, GenerationService.Download)

The service depends on the LeonardoClient port; the two operations Download
uses are embedded as a structure of functions.  `downloadImage url dest`
models the port's image fetch: on success it returns the bytes it wrote at
`dest` (the Go method returns only an error; the write to `dest` is its
effect), on failure it writes nothing (the port's contract forbids leaving
a partially-written destination file).  The file system is an explicit list
of (path, contents) pairs threaded through the workflow, and `calls`
records the urls passed to downloadImage in call order, so that "stops
immediately" and "writes zero files" are provable statements. -/

/-- The two LeonardoClient port operations Download consumes. -/
structure LeonardoClientModel where
  getGenerationStatus : String → Except String GenerationStatus
  downloadImage : String → String → Except String String

/-- domain.DownloadResult. -/
structure DownloadResult where
  filePaths : List String := []
  deriving Repr

/-- The observable outcome of one Download run: the returned value/error
pair, the final file system, and the sequence of downloadImage calls. -/
structure DownloadOutcome where
  result : DownloadResult
  error : Option String
  fs : List (String × String)
  calls : List String
  deriving Repr

/-- The destination path for the image at 0-based position `i`:
`filepath.Join(outputDir, fmt.Sprintf("%s_%d.png", id, i+1))`, with Join
embedded as separator concatenation. -/
def imageDest (outputDir id : String) (i : Nat) : String :=
  outputDir ++ "/" ++ id ++ "_" ++ toString (i + 1) ++ ".png"

/-- The per-image loop of GenerationService.Download (service layer, lines
63-70): fetch each url in order into its computed destination, fail fast
with the 1-based index on the first error (returning the empty
DownloadResult), and collect the written paths. -/
def downloadLoop (c : LeonardoClientModel) (id outputDir : String) :
    List String → Nat → List (String × String) → List String → List String →
    DownloadOutcome
  | [], _, fs, acc, calls =>
      { result := { filePaths := acc }, error := none, fs := fs, calls := calls }
  | url :: rest, i, fs, acc, calls =>
      match c.downloadImage url (imageDest outputDir id i) with
      | .error e =>
          { result := {},
            error := some ("downloading image " ++ toString (i + 1) ++ ": " ++ e),
            fs := fs, calls := calls ++ [url] }
      | .ok content =>
          downloadLoop c id outputDir rest (i + 1)
            (fs ++ [(imageDest outputDir id i, content)])
            (acc ++ [imageDest outputDir id i]) (calls ++ [url])

/-- GenerationService.Download (service layer, lines 52-72): status fetch,
the COMPLETE check, the empty-image-list check, then the download loop. -/
def download (c : LeonardoClientModel) (id outputDir : String)
    (fs : List (String × String)) : DownloadOutcome :=
  match c.getGenerationStatus id with
  | .error e => { result := {}, error := some e, fs := fs, calls := [] }
  | .ok status =>
    if status.status ≠ "COMPLETE" then
      { result := {},
        error := some ("generation is not complete, current status: " ++ status.status),
        fs := fs, calls := [] }
    else if status.images.length = 0 then
      { result := {},
        error := some ("no images available for generation " ++ id),
        fs := fs, calls := [] }
    else downloadLoop c id outputDir status.images 0 fs [] []

theorem downloadLoop_ok (c : LeonardoClientModel) (id outputDir : String)
    (cont : String → String) :
    ∀ (imgs : List String) (k : Nat) (fs : List (String × String))
      (acc calls : List String),
    (∀ p ∈ imgs.enumFrom k,
        c.downloadImage p.2 (imageDest outputDir id p.1) = .ok (cont p.2)) →
    downloadLoop c id outputDir imgs k fs acc calls =
      { result := { filePaths :=
            acc ++ (imgs.enumFrom k).map fun p => imageDest outputDir id p.1 },
        error := none,
        fs := fs ++ (imgs.enumFrom k).map
            fun p => (imageDest outputDir id p.1, cont p.2),
        calls := calls ++ imgs } := by
  intro imgs
  induction imgs with
  | nil => intro k fs acc calls _; simp [downloadLoop, List.enumFrom]
  | cons url rest ih =>
      intro k fs acc calls h
      have hhead : c.downloadImage url (imageDest outputDir id k) = .ok (cont url) :=
        h (k, url) (by simp [List.enumFrom])
      have htail : ∀ p ∈ rest.enumFrom (k + 1),
          c.downloadImage p.2 (imageDest outputDir id p.1) = .ok (cont p.2) := by
        intro p hp
        exact h p (by simp [List.enumFrom, hp])
      simp only [downloadLoop, hhead]
      rw [ih (k + 1) _ _ _ htail]
      simp [List.enumFrom]

theorem downloadLoop_fail (c : LeonardoClientModel) (id outputDir : String)
    (cont : String → String) (url e : String) (post : List String) :
    ∀ (pre : List String) (k : Nat) (fs : List (String × String))
      (acc calls : List String),
    (∀ p ∈ pre.enumFrom k,
        c.downloadImage p.2 (imageDest outputDir id p.1) = .ok (cont p.2)) →
    c.downloadImage url (imageDest outputDir id (k + pre.length)) = .error e →
    downloadLoop c id outputDir (pre ++ url :: post) k fs acc calls =
      { result := {},
        error := some ("downloading image "
            ++ toString (k + pre.length + 1) ++ ": " ++ e),
        fs := fs ++ (pre.enumFrom k).map
            fun p => (imageDest outputDir id p.1, cont p.2),
        calls := calls ++ pre ++ [url] } := by
  intro pre
  induction pre with
  | nil =>
      intro k fs acc calls _ hfail
      simp only [List.length_nil, Nat.add_zero] at hfail
      simp [downloadLoop, hfail, List.enumFrom]
  | cons a t ih =>
      intro k fs acc calls h hfail
      have hhead : c.downloadImage a (imageDest outputDir id k) = .ok (cont a) :=
        h (k, a) (by simp [List.enumFrom])
      have htail : ∀ p ∈ t.enumFrom (k + 1),
          c.downloadImage p.2 (imageDest outputDir id p.1) = .ok (cont p.2) := by
        intro p hp
        exact h p (by simp [List.enumFrom, hp])
      have hfail1 : c.downloadImage url
          (imageDest outputDir id (k + 1 + t.length)) = .error e := by
        have harith : k + 1 + t.length = k + (a :: t).length := by
          simp [List.length_cons]; omega
        rw [harith]; exact hfail
      simp only [List.cons_append, downloadLoop, hhead, List.append_eq]
      rw [ih (k + 1) _ _ _ htail hfail1]
      have harith₂ : k + 1 + t.length = k + (a :: t).length := by
        simp [List.length_cons]; omega
      simp [List.enumFrom, harith₂]

theorem enumFrom_map_fst_apply {α β : Type} (f : Nat → β) :
    ∀ (l : List α) (k : Nat),
    (l.enumFrom k).map (fun p => f p.1) = (List.range' k l.length).map f := by
  intro l
  induction l with
  | nil => intro k; rfl
  | cons a t ih => intro k; simp [List.enumFrom, List.range', ih]

/-- C7: when the fetched status is anything other than COMPLETE, Download
fails with an error naming that status; when it is COMPLETE with an empty
image list, Download fails with the distinct no-images error; in both cases
the file system is untouched and no download call is made. -/
theorem c7_download_preconditions (c : LeonardoClientModel) (id outputDir : String)
    (fs : List (String × String)) (st : GenerationStatus)
    (hst : c.getGenerationStatus id = .ok st) :
    (st.status ≠ "COMPLETE" →
      download c id outputDir fs =
        { result := {},
          error := some ("generation is not complete, current status: " ++ st.status),
          fs := fs, calls := [] })
  ∧ (st.status = "COMPLETE" → st.images = [] →
      download c id outputDir fs =
        { result := {},
          error := some ("no images available for generation " ++ id),
          fs := fs, calls := [] }) := by
  constructor
  · intro hne
    simp [download, hst, hne]
  · intro hc him
    simp [download, hst, hc, him]

/-- C7 witness: a PENDING generation fails naming PENDING with no file
written; a COMPLETE generation with zero images fails with the no-images
error and no file written. -/
theorem c7_witness :
    download
        { getGenerationStatus := fun _ => .ok { status := "PENDING" },
          downloadImage := fun _ _ => .ok "" } "g" "out" []
      = { result := {},
          error := some ("generation is not complete, current status: " ++ "PENDING"),
          fs := [], calls := [] }
  ∧ download
        { getGenerationStatus := fun _ => .ok { status := "COMPLETE" },
          downloadImage := fun _ _ => .ok "" } "g" "out" []
      = { result := {},
          error := some ("no images available for generation " ++ "g"),
          fs := [], calls := [] } := by
  constructor
  · exact (c7_download_preconditions _ "g" "out" []
      { status := "PENDING" } rfl).1 (by decide)
  · exact (c7_download_preconditions _ "g" "out" []
      { status := "COMPLETE" } rfl).2 rfl rfl

/-- C3: if the download of image N fails (N = pre.length + 1, 1-based),
Download stops at that point — the urls attempted are exactly the first N —
returns an error naming index N, and the final file system is the initial
one extended with the files written in iterations 1..N-1, none of which is
removed or altered. -/
theorem c3_fail_fast (c : LeonardoClientModel) (id outputDir : String)
    (fs : List (String × String)) (st : GenerationStatus)
    (pre post : List String) (url e : String) (cont : String → String)
    (hst : c.getGenerationStatus id = .ok st)
    (hc : st.status = "COMPLETE")
    (him : st.images = pre ++ url :: post)
    (hpre : ∀ p ∈ pre.enumFrom 0,
        c.downloadImage p.2 (imageDest outputDir id p.1) = .ok (cont p.2))
    (hfail : c.downloadImage url (imageDest outputDir id pre.length) = .error e) :
    download c id outputDir fs =
      { result := {},
        error := some ("downloading image " ++ toString (pre.length + 1) ++ ": " ++ e),
        fs := fs ++ (pre.enumFrom 0).map
            fun p => (imageDest outputDir id p.1, cont p.2),
        calls := pre ++ [url] } := by
  have hlen : ¬ st.images.length = 0 := by simp [him]
  have hcc : ¬ st.status ≠ "COMPLETE" := by simp [hc]
  simp only [download, hst, if_neg hcc, if_neg hlen, him]
  have h0 : c.downloadImage url (imageDest outputDir id (0 + pre.length)) = .error e := by
    simpa using hfail
  rw [downloadLoop_fail c id outputDir cont url e post pre 0 fs [] [] hpre h0]
  simp

/-- C3 witness: with two image urls where the second fetch fails, Download
attempts exactly the two urls, reports image index 2, and the pre-existing
file and the first downloaded image are both still on disk. -/
theorem c3_witness :
    download
        { getGenerationStatus := fun _ =>
            .ok { status := "COMPLETE", images := ["u1", "u2"] },
          downloadImage := fun u _ =>
            if u = "u1" then .ok "b1" else .error "boom" }
        "g" "out" [("keep", "k")]
      = { result := {},
          error := some ("downloading image " ++ toString 2 ++ ": " ++ "boom"),
          fs := [("keep", "k"), (imageDest "out" "g" 0, "b1")],
          calls := ["u1", "u2"] } := by
  have h := c3_fail_fast
      { getGenerationStatus := fun _ =>
          .ok { status := "COMPLETE", images := ["u1", "u2"] },
        downloadImage := fun u _ =>
          if u = "u1" then .ok "b1" else .error "boom" }
      "g" "out" [("keep", "k")]
      { status := "COMPLETE", images := ["u1", "u2"] }
      ["u1"] [] "u2" "boom" (fun _ => "b1")
      rfl rfl rfl
      (by
        intro p hp
        simp [List.enumFrom] at hp
        subst hp
        rfl)
      rfl
  simpa using h

/-- C9: with a COMPLETE status, a non-empty image list and every fetch
succeeding, Download calls the client on the urls in list order, writes one
file per image at `outputDir/{id}_{i}.png` for 1-based i, and returns
exactly those paths in image-list order. -/
theorem c9_download_success (c : LeonardoClientModel) (id outputDir : String)
    (fs : List (String × String)) (st : GenerationStatus) (cont : String → String)
    (hst : c.getGenerationStatus id = .ok st)
    (hc : st.status = "COMPLETE")
    (hne : st.images ≠ [])
    (hok : ∀ p ∈ st.images.enumFrom 0,
        c.downloadImage p.2 (imageDest outputDir id p.1) = .ok (cont p.2)) :
    download c id outputDir fs =
      { result := { filePaths :=
            (List.range st.images.length).map fun i => imageDest outputDir id i },
        error := none,
        fs := fs ++ (st.images.enumFrom 0).map
            fun p => (imageDest outputDir id p.1, cont p.2),
        calls := st.images } := by
  have hlen : ¬ st.images.length = 0 := by simpa using hne
  have hcc : ¬ st.status ≠ "COMPLETE" := by simp [hc]
  simp only [download, hst, if_neg hcc, if_neg hlen]
  rw [downloadLoop_ok c id outputDir cont st.images 0 fs [] [] hok]
  simp [enumFrom_map_fst_apply, List.range_eq_range']

/-- C9 witness: two urls, both succeeding — two files in order and the two
paths returned in order. -/
theorem c9_witness :
    download
        { getGenerationStatus := fun _ =>
            .ok { status := "COMPLETE", images := ["u1", "u2"] },
          downloadImage := fun u _ => .ok (u ++ "-bytes") }
        "g" "out" []
      = { result := { filePaths := [imageDest "out" "g" 0, imageDest "out" "g" 1] },
          error := none,
          fs := [(imageDest "out" "g" 0, "u1-bytes"), (imageDest "out" "g" 1, "u2-bytes")],
          calls := ["u1", "u2"] } := by
  have h := c9_download_success
      { getGenerationStatus := fun _ =>
          .ok { status := "COMPLETE", images := ["u1", "u2"] },
        downloadImage := fun u _ => .ok (u ++ "-bytes") }
      "g" "out" []
      { status := "COMPLETE", images := ["u1", "u2"] }
      (fun u => u ++ "-bytes")
      rfl rfl (by simp)
      (by
        intro p hp
        simp [List.enumFrom] at hp
        rcases hp with h₁ | h₁ <;> subst h₁ <;> rfl)
  simpa [List.range', List.enumFrom] using h

theorem downloadLoop_error_result (c : LeonardoClientModel) (id outputDir : String) :
    ∀ (imgs : List String) (k : Nat) (fs : List (String × String))
      (acc calls : List String),
    ((downloadLoop c id outputDir imgs k fs acc calls).error).isSome = true →
    (downloadLoop c id outputDir imgs k fs acc calls).result.filePaths = [] := by
  intro imgs
  induction imgs with
  | nil => intro k fs acc calls h; simp [downloadLoop] at h
  | cons url rest ih =>
      intro k fs acc calls h
      simp only [downloadLoop] at h ⊢
      cases hd : c.downloadImage url (imageDest outputDir id k) with
      | error e => simp [hd]
      | ok content =>
          rw [hd] at h
          exact ih _ _ _ _ h

/-- C10: whenever Download returns an error — from the status fetch, the
COMPLETE check, the empty-list check or a per-image failure — the returned
DownloadResult carries an empty path list, even if earlier images were
downloaded. -/
theorem c10_error_empty_result (c : LeonardoClientModel) (id outputDir : String)
    (fs : List (String × String))
    (h : ((download c id outputDir fs).error).isSome = true) :
    (download c id outputDir fs).result.filePaths = [] := by
  cases hst : c.getGenerationStatus id with
  | error e => simp [download, hst]
  | ok st =>
      simp only [download, hst] at h ⊢
      by_cases hc : st.status ≠ "COMPLETE"
      · simp [hc]
      · by_cases hlen : st.images.length = 0
        · simp [hc, hlen]
        · simp only [if_neg hc, if_neg hlen] at h ⊢
          exact downloadLoop_error_result c id outputDir st.images 0 fs [] [] h

/-- C10 witness: with the first image downloaded and the second failing,
Download errors and still reports no file paths. -/
theorem c10_witness :
    ((download
        { getGenerationStatus := fun _ =>
            .ok { status := "COMPLETE", images := ["v1", "v2"] },
          downloadImage := fun u _ =>
            if u = "v1" then .ok "b1" else .error "boom" }
        "h" "out2" []).error).isSome = true
  ∧ (download
        { getGenerationStatus := fun _ =>
            .ok { status := "COMPLETE", images := ["v1", "v2"] },
          downloadImage := fun u _ =>
            if u = "v1" then .ok "b1" else .error "boom" }
        "h" "out2" []).result.filePaths = [] := by
  refine ⟨by rfl, ?_⟩
  exact c10_error_empty_result _ "h" "out2" [] (by rfl)

/-! ## The sidecar-writing download iteration (C8)

The README under src documents that the download command writes a JSON
sidecar metadata file next to each image, and domain.GenerationMetadata
with its tests exists for that purpose, but the iteration of
GenerationService.Download that synthesizes sidecars is not among the
provided sources (the provided service file predates it).  The definitions
in this section are therefore modelled from the spec (§4.4 steps 3-5 and
§6's persisted-state layout), reusing the faithful status/image-loop
skeleton proved above. -/

/-- Modelled from the spec: the sidecar JSON document persisted beside each
downloaded image — generation id, that image's url, a timestamp, and the
best-effort parameter set. -/
structure SidecarDoc where
  generationId : String
  imageUrl : String
  timestamp : String
  parameters : List (String × Json)
  deriving Repr

/-- A file written by the sidecar-writing workflow: image bytes or a
sidecar document. -/
inductive FileEntry where
  | image : String → FileEntry
  | meta : SidecarDoc → FileEntry
  deriving Repr

/-- Modelled from the spec: best-effort extraction of the generation
parameters from the parsed raw status response — the fields of the
generations_by_pk object other than the status and the image array; when
nothing can be located the result is empty (and a sidecar is still
written). -/
def extractParameters (statusDoc : Option Json) : List (String × Json) :=
  match statusDoc with
  | some (Json.obj fields) =>
    match lookupField "generations_by_pk" fields with
    | some (Json.obj gen) =>
        gen.filter fun p => p.1 != "status" && p.1 != "generated_images"
    | _ => []
  | _ => []

/-- The observable outcome of one sidecar-writing download run. -/
structure DownloadSidecarOutcome where
  result : DownloadResult
  error : Option String
  fs : List (String × FileEntry)
  calls : List String
  deriving Repr

/-- Modelled from the spec: the per-image loop of the sidecar-writing
download workflow — each image fetched in list order into its computed
destination, and after each successful fetch a sidecar persisted beside the
image at the image path with ".json" appended. -/
def downloadSidecarLoop (c : LeonardoClientModel) (id outputDir now : String)
    (params : List (String × Json)) :
    List String → Nat → List (String × FileEntry) → List String → List String →
    DownloadSidecarOutcome
  | [], _, fs, acc, calls =>
      { result := { filePaths := acc }, error := none, fs := fs, calls := calls }
  | url :: rest, i, fs, acc, calls =>
      match c.downloadImage url (imageDest outputDir id i) with
      | .error e =>
          { result := {},
            error := some ("downloading image " ++ toString (i + 1) ++ ": " ++ e),
            fs := fs, calls := calls ++ [url] }
      | .ok content =>
          downloadSidecarLoop c id outputDir now params rest (i + 1)
            (fs ++ [(imageDest outputDir id i, FileEntry.image content),
                    (imageDest outputDir id i ++ ".json",
                     FileEntry.meta { generationId := id, imageUrl := url,
                                      timestamp := now, parameters := params })])
            (acc ++ [imageDest outputDir id i]) (calls ++ [url])

/-- Modelled from the spec: the sidecar-writing Download workflow.  `now` is
the clock reading (real time is external to the embedding) and `statusDoc`
the parse outcome of the raw status response from which parameters are
extracted best-effort. -/
def downloadWithSidecars (c : LeonardoClientModel) (id outputDir now : String)
    (statusDoc : Option Json) (fs : List (String × FileEntry)) :
    DownloadSidecarOutcome :=
  match c.getGenerationStatus id with
  | .error e => { result := {}, error := some e, fs := fs, calls := [] }
  | .ok status =>
    if status.status ≠ "COMPLETE" then
      { result := {},
        error := some ("generation is not complete, current status: " ++ status.status),
        fs := fs, calls := [] }
    else if status.images.length = 0 then
      { result := {},
        error := some ("no images available for generation " ++ id),
        fs := fs, calls := [] }
    else downloadSidecarLoop c id outputDir now (extractParameters statusDoc)
      status.images 0 fs [] []

theorem downloadSidecarLoop_ok (c : LeonardoClientModel)
    (id outputDir now : String) (params : List (String × Json))
    (cont : String → String) :
    ∀ (imgs : List String) (k : Nat) (fs : List (String × FileEntry))
      (acc calls : List String),
    (∀ p ∈ imgs.enumFrom k,
        c.downloadImage p.2 (imageDest outputDir id p.1) = .ok (cont p.2)) →
    downloadSidecarLoop c id outputDir now params imgs k fs acc calls =
      { result := { filePaths :=
            acc ++ (imgs.enumFrom k).map fun p => imageDest outputDir id p.1 },
        error := none,
        fs := fs ++ (imgs.enumFrom k).flatMap
            fun p => [(imageDest outputDir id p.1, FileEntry.image (cont p.2)),
                      (imageDest outputDir id p.1 ++ ".json",
                       FileEntry.meta { generationId := id, imageUrl := p.2,
                                        timestamp := now, parameters := params })],
        calls := calls ++ imgs } := by
  intro imgs
  induction imgs with
  | nil => intro k fs acc calls _; simp [downloadSidecarLoop, List.enumFrom]
  | cons url rest ih =>
      intro k fs acc calls h
      have hhead : c.downloadImage url (imageDest outputDir id k) = .ok (cont url) :=
        h (k, url) (by simp [List.enumFrom])
      have htail : ∀ p ∈ rest.enumFrom (k + 1),
          c.downloadImage p.2 (imageDest outputDir id p.1) = .ok (cont p.2) := by
        intro p hp
        exact h p (by simp [List.enumFrom, hp])
      simp only [downloadSidecarLoop, hhead]
      rw [ih (k + 1) _ _ _ htail]
      simp [List.enumFrom]

/-- C8 (spec-modelled): when every fetch succeeds, the workflow reports no
error and, for each image at 0-based position i with url u, the final file
system contains both the image file at its destination and, beside it at
that path with ".json" appended, a sidecar document holding the generation
id, u, the timestamp, and the best-effort parameter set — which may be
empty, the sidecar being written regardless. -/
theorem c8_sidecar_written (c : LeonardoClientModel) (id outputDir now : String)
    (statusDoc : Option Json) (fs : List (String × FileEntry))
    (st : GenerationStatus) (cont : String → String)
    (hst : c.getGenerationStatus id = .ok st)
    (hc : st.status = "COMPLETE")
    (hne : st.images ≠ [])
    (hok : ∀ p ∈ st.images.enumFrom 0,
        c.downloadImage p.2 (imageDest outputDir id p.1) = .ok (cont p.2)) :
    (downloadWithSidecars c id outputDir now statusDoc fs).error = none
  ∧ ∀ p ∈ st.images.enumFrom 0,
      (imageDest outputDir id p.1, FileEntry.image (cont p.2))
          ∈ (downloadWithSidecars c id outputDir now statusDoc fs).fs
      ∧ (imageDest outputDir id p.1 ++ ".json",
          FileEntry.meta { generationId := id, imageUrl := p.2, timestamp := now,
                           parameters := extractParameters statusDoc })
          ∈ (downloadWithSidecars c id outputDir now statusDoc fs).fs := by
  have hlen : ¬ st.images.length = 0 := by simpa using hne
  have hcc : ¬ st.status ≠ "COMPLETE" := by simp [hc]
  simp only [downloadWithSidecars, hst, if_neg hcc, if_neg hlen]
  rw [downloadSidecarLoop_ok c id outputDir now (extractParameters statusDoc) cont
    st.images 0 fs [] [] hok]
  refine ⟨rfl, ?_⟩
  intro p hp
  constructor
  · exact List.mem_append_right _ (List.mem_flatMap.mpr ⟨p, hp, by simp⟩)
  · exact List.mem_append_right _ (List.mem_flatMap.mpr ⟨p, hp, by simp⟩)

/-- C8 witness: one image, with a raw status response from which parameter
extraction finds nothing — the sidecar with just id, url and timestamp is
still written beside the image. -/
theorem c8_witness :
    (downloadWithSidecars
        { getGenerationStatus := fun _ =>
            .ok { status := "COMPLETE", images := ["w1"] },
          downloadImage := fun _ _ => .ok "wb" }
        "gid" "dir" "2026-10-11T00:00:00Z" none []).error = none
  ∧ (imageDest "dir" "gid" 0 ++ ".json",
      FileEntry.meta { generationId := "gid", imageUrl := "w1",
                       timestamp := "2026-10-11T00:00:00Z", parameters := [] })
      ∈ (downloadWithSidecars
          { getGenerationStatus := fun _ =>
              .ok { status := "COMPLETE", images := ["w1"] },
            downloadImage := fun _ _ => .ok "wb" }
          "gid" "dir" "2026-10-11T00:00:00Z" none []).fs := by
  have h := c8_sidecar_written
      { getGenerationStatus := fun _ =>
          .ok { status := "COMPLETE", images := ["w1"] },
        downloadImage := fun _ _ => .ok "wb" }
      "gid" "dir" "2026-10-11T00:00:00Z" none []
      { status := "COMPLETE", images := ["w1"] }
      (fun _ => "wb")
      rfl rfl (by simp)
      (by
        intro p hp
        simp [List.enumFrom] at hp
        subst hp
        rfl)
  refine ⟨h.1, ?_⟩
  have h₂ := (h.2 (0, "w1") (by simp [List.enumFrom])).2
  simpa [extractParameters] using h₂

end LeonardoCLI
